import Mathlib

/-!
# Verification of rcpufetch's CPU-information extraction and normalization

This file gives a shallow embedding, in Lean 4, of the pure computational
core of the `rcpufetch` utility (source files `src/linux/linux.rs`,
`src/windows/windows.rs`, `src/macos/macos.rs`, `src/main.rs`,
`src/art/logos.rs`) and proves or refutes the frozen specification claims
about it.

Modelling conventions:
* Rust `&str` / `String` values are modelled as `List Char` (`Str` below),
  with executable, structurally recursive re-implementations of exactly the
  string operations the source uses (`split`, `split_once`, `trim`,
  `lines`, `starts_with`, `ends_with`, `contains`, `to_lowercase`,
  `split_whitespace`, `replace`).
* Rust `u32`/`u64` parsing and arithmetic is modelled on `Nat`, with an
  explicit `% 2^32` (resp. range check) where the source performs `as u32`
  casts or `u32` multiplication that may overflow.
* Rust `f32` values (CPU frequencies) are modelled by `ℚ`; the arithmetic
  the source performs on them (comparison, `max`, division by a constant)
  is carried out exactly.  `f32::from_str` is modelled for the fixed-point
  decimal forms the kernel actually emits.
* File-system and subprocess reads are modelled by passing the would-be file
  contents as explicit parameters (`Option` for a read that may fail).
* A Rust panic (integer division by zero) is modelled by `Option.none`.
-/

namespace Rcpufetch

/-- Rust strings are modelled as lists of characters. -/
abbrev Str := List Char

/-- `isPre p s` is Rust's `s.starts_with(p)` (also the worker for substring
search below). -/
def isPre : Str → Str → Bool
  | [], _ => true
  | _ :: _, [] => false
  | a :: as, b :: bs => a = b && isPre as bs

/-- Fueled worker for `splitOnL`; the fuel is the length of the remaining
input, which strictly bounds the recursion. -/
def splitOnGo (sep : Str) : Nat → Str → Str → List Str
  | _, [], acc => [acc.reverse]
  | 0, xs, acc => [acc.reverse ++ xs]
  | fuel + 1, x :: xs, acc =>
    if isPre sep (x :: xs) then
      acc.reverse :: splitOnGo sep fuel (List.drop (sep.length - 1) xs) []
    else
      splitOnGo sep fuel xs (x :: acc)

/-- Rust's `s.split(sep)` collected to a list: leftmost, non-overlapping
occurrences of `sep` delimit the pieces.  The source never splits on an
empty pattern, for which we return `[s]`. -/
def splitOnL (sep s : Str) : List Str :=
  if sep.isEmpty then [s] else splitOnGo sep s.length s []

/-- Rust's `s.ends_with(suffix)`. -/
def endsWithL (suffix s : Str) : Bool :=
  isPre suffix.reverse s.reverse

/-- Rust's `s.trim()` (restricted to the whitespace characters appearing in
the modelled inputs). -/
def trimL (s : Str) : Str :=
  ((s.dropWhile Char.isWhitespace).reverse.dropWhile Char.isWhitespace).reverse

/-- Strip one trailing carriage return, as Rust's `str::lines` does. -/
def stripCR (l : Str) : Str :=
  if l.getLast? = some '\r' then l.dropLast else l

/-- Rust's `s.lines()` collected to a list: split on `'\n'`, drop one
trailing empty piece (a final line ending is optional), strip a trailing
`'\r'` from each line. -/
def rustLines (s : Str) : List Str :=
  let parts := splitOnL ['\n'] s
  let parts := if parts.getLast? = some [] then parts.dropLast else parts
  parts.map stripCR

/-- Rust's `s.split_once(c)`: split at the first occurrence of `c`. -/
def splitOnceL (c : Char) : Str → Option (Str × Str)
  | [] => none
  | x :: xs =>
    if x = c then some ([], xs)
    else (splitOnceL c xs).map (fun p => (x :: p.1, p.2))

/-- Rust's `s.split_whitespace()` collected to a list: maximal runs of
non-whitespace characters. -/
def splitWsGo : Str → Str → List Str
  | [], [] => []
  | [], acc => [acc.reverse]
  | c :: cs, acc =>
    if c.isWhitespace then
      if acc.isEmpty then splitWsGo cs [] else acc.reverse :: splitWsGo cs []
    else splitWsGo cs (c :: acc)

/-- Rust's `s.split_whitespace()` collected to a list. -/
def splitWsL (s : Str) : List Str := splitWsGo s []

/-- Rust's `s.to_lowercase()` (ASCII-faithful, which covers every vendor
fragment the source matches on). -/
def toLowerL (s : Str) : Str := s.map Char.toLower

/-- Rust's `haystack.contains(needle)` for string needles. -/
def containsSub (needle : Str) : Str → Bool
  | [] => isPre needle []
  | x :: xs => isPre needle (x :: xs) || containsSub needle xs

/-- Numeric value of a digit string (helper for the integer parsers). -/
def digitsToNat (s : Str) : Nat :=
  s.foldl (fun a c => a * 10 + (c.toNat - 48)) 0

/-- Parse a non-empty all-digit string to a `Nat`, else `none`. -/
def parseNatDigits (s : Str) : Option Nat :=
  if s.isEmpty then none
  else if s.all Char.isDigit then some (digitsToNat s) else none

/-- Rust's `str::parse::<u32>()`: optional leading `'+'`, one or more ASCII
digits, value within `u32` range (overflow is a parse error). -/
def parseU32L (s : Str) : Option Nat :=
  let s' := if isPre ['+'] s then s.drop 1 else s
  match parseNatDigits s' with
  | some v => if v < 2 ^ 32 then some v else none
  | none => none

/-- Rust's `str::parse::<u64>()`: optional leading `'+'`, one or more ASCII
digits, value within `u64` range. -/
def parseU64L (s : Str) : Option Nat :=
  let s' := if isPre ['+'] s then s.drop 1 else s
  match parseNatDigits s' with
  | some v => if v < 2 ^ 64 then some v else none
  | none => none

/-- Rust's `str::parse::<f32>()`, modelled exactly on `ℚ` for the
fixed-point decimal forms (`[+-]?digits[.digits]?`, `[+-]?.digits`)
that the modelled data sources emit; exponent and special forms are not
modelled. -/
def parseF32L (s : Str) : Option ℚ :=
  let (neg, body) :=
    match s with
    | '-' :: r => (true, r)
    | '+' :: r => (false, r)
    | r => (false, r)
  match splitOnceL '.' body with
  | none => (parseNatDigits body).map (fun n => if neg then -(n : ℚ) else (n : ℚ))
  | some (ip, fp) =>
    if ip.all Char.isDigit && fp.all Char.isDigit && (!ip.isEmpty || !fp.isEmpty) then
      let v : ℚ := (digitsToNat ip : ℚ) + (digitsToNat fp : ℚ) / (10 ^ fp.length : ℚ)
      some (if neg then -v else v)
    else none

/-- Embedding of `LinuxCpuInfo::parse_cache_size` (src/linux/linux.rs
lines 370–379): strip a trailing `'K'` or `"KB"` and parse the remainder as
`u32`; otherwise parse the whole string as a plain number of kilobytes. -/
def parse_cache_size (s : Str) : Option Nat :=
  if endsWithL ['K'] s then
    parseU32L (s.take (s.length - 1))
  else if endsWithL ['K', 'B'] s then
    parseU32L (s.take (s.length - 2))
  else
    parseU32L s

/-! ## Embedding of `LinuxCpuInfo::parse_cpuinfo` (src/linux/linux.rs 115–231)

The source scans the blocks of `/proc/cpuinfo` (separated by `"\n\n"`),
accumulating first-seen model/vendor/flags, the first parsed `cache size`,
the running maximum of `cpu MHz` readings, the sets of distinct
`physical id`s and of distinct `(physical id, core id)` pairs, and the
number of non-empty blocks.

The source's single `match key` dispatch is split here into two disjoint
functions over the same line: `gsStep` covers the arms that update the
block-independent accumulators (`model name`, `vendor_id`, `flags`,
`cache size`, `cpu MHz`), and `locStep` covers the arms that update the
per-block `current_physical_id` / `current_core_id` locals (`physical id`,
`core id`).  Both replay the source's `line.trim()` / `split_once(':')` /
`key.trim()` / `value.trim()` preprocessing. -/

/-- The intermediate result of `parse_cpuinfo`
(struct `ParsedCpuInfo`, src/linux/linux.rs 541–562). -/
structure ParsedCpuInfo where
  model : Str
  vendor : Str
  flags : Str
  physical_cores : Nat
  logical_cores : Nat
  max_mhz : Option ℚ
  l1d_size : Option (Nat × Nat)
  l1i_size : Option (Nat × Nat)
  l2_size : Option (Nat × Nat)
  l3_size : Option (Nat × Nat)

/-- The mutable accumulators of the `parse_cpuinfo` scan
(src/linux/linux.rs 116–125). -/
structure GState where
  model : Str
  vendor : Str
  flags : Str
  cacheSize : Option Nat
  maxMhz : Option ℚ
  physIds : Finset Nat
  coreIds : Finset (Nat × Nat)
  logical : Nat

/-- Initial accumulator values (src/linux/linux.rs 116–125). -/
def initGState : GState :=
  { model := [], vendor := [], flags := [], cacheSize := none,
    maxMhz := none, physIds := ∅, coreIds := ∅, logical := 0 }

/-- One line of the `parse_cpuinfo` scan, block-independent arms
(src/linux/linux.rs 137–176). -/
def gsStep (gs : GState) (line : Str) : GState :=
  let l := trimL line
  if l.isEmpty then gs
  else
    match splitOnceL ':' l with
    | none => gs
    | some (k, v) =>
      let key := trimL k
      let val := trimL v
      if key = "model name".toList then
        if gs.model.isEmpty then { gs with model := val } else gs
      else if key = "vendor_id".toList then
        if gs.vendor.isEmpty then { gs with vendor := val } else gs
      else if key = "flags".toList then
        if gs.flags.isEmpty then { gs with flags := val } else gs
      else if key = "cache size".toList then
        if gs.cacheSize.isNone then
          match (splitWsL val).head? with
          | some sizeStr => { gs with cacheSize := parseU32L sizeStr }
          | none => gs
        else gs
      else if key = "cpu MHz".toList then
        match parseF32L val with
        | some mhz =>
          { gs with maxMhz := some (match gs.maxMhz with
                                    | none => mhz
                                    | some current => max current mhz) }
        | none => gs
      else gs

/-- One line of the `parse_cpuinfo` scan, per-block identity arms
(src/linux/linux.rs 177–186): the last successfully parsed `physical id`
and `core id` of the block. -/
def locStep (loc : Option Nat × Option Nat) (line : Str) : Option Nat × Option Nat :=
  let l := trimL line
  if l.isEmpty then loc
  else
    match splitOnceL ':' l with
    | none => loc
    | some (k, v) =>
      let key := trimL k
      let val := trimL v
      if key = "physical id".toList then
        match parseU32L val with
        | some id => (some id, loc.2)
        | none => loc
      else if key = "core id".toList then
        match parseU32L val with
        | some id => (loc.1, some id)
        | none => loc
      else loc

/-- One processor block of the `parse_cpuinfo` scan
(src/linux/linux.rs 128–199): skip blank blocks, bump the logical-core
counter (`u32` increment, hence `% 2^32`), scan the lines, then record the
block's `physical id` and, when both are present, its
`(physical id, core id)` pair. -/
def procBlock (gs : GState) (block : Str) : GState :=
  if (trimL block).isEmpty then gs
  else
    let gs1 := { gs with logical := (gs.logical + 1) % 2 ^ 32 }
    let r := (rustLines block).foldl
      (fun p line => (gsStep p.1 line, locStep p.2 line)) (gs1, (none, none))
    let gs2 :=
      match r.2.1 with
      | some p => { r.1 with physIds := insert p r.1.physIds }
      | none => r.1
    match r.2.1, r.2.2 with
    | some p, some c => { gs2 with coreIds := insert (p, c) gs2.coreIds }
    | _, _ => gs2

/-- Embedding of the body of `LinuxCpuInfo::parse_cpuinfo`
(src/linux/linux.rs 115–231).  `physical_cores` comes from the distinct
pair count, falling back to the distinct `physical id` count, falling back
to `1` (lines 202–210); `usize → u32` casts are `% 2^32`.  `max_mhz` is
converted from MHz to GHz (line 213) and the lone `/proc` cache size
becomes the L2 entry with total `size * physical_cores` in `u32`
arithmetic (line 217). -/
def parseCpuinfoCore (content : Str) : ParsedCpuInfo :=
  let gs := (splitOnL "\n\n".toList content).foldl procBlock initGState
  let physical_cores :=
    if gs.coreIds.Nonempty then gs.coreIds.card % 2 ^ 32
    else if gs.physIds.Nonempty then gs.physIds.card % 2 ^ 32
    else 1
  { model := gs.model, vendor := gs.vendor, flags := gs.flags,
    physical_cores := physical_cores,
    logical_cores := gs.logical,
    max_mhz := gs.maxMhz.map (fun mhz => mhz / 1000),
    l1d_size := none,
    l1i_size := none,
    l2_size := gs.cacheSize.map (fun size => (size, (size * physical_cores) % 2 ^ 32)),
    l3_size := none }

/-- `LinuxCpuInfo::parse_cpuinfo` as exposed to its caller: the source's
return type is `Result<ParsedCpuInfo, String>`, but its body ends in
`Ok(...)` and contains no early return, so the error case is unreachable.
-/
def parse_cpuinfo (content : Str) : Except Str ParsedCpuInfo :=
  .ok (parseCpuinfoCore content)

/-! ### Specification-side extraction of the observed identity pairs and
frequency readings

These re-read the claims' language ("distinct (physical id, core id)
pairs across all blocks", "maximum observed value") directly off the block
structure, independently of the accumulator scan above. -/

/-- The processor blocks of a `/proc/cpuinfo` content string. -/
def blocksOf (content : Str) : List Str :=
  splitOnL "\n\n".toList content

/-- The last successfully parsed `physical id` / `core id` of one block. -/
def blockIds (block : Str) : Option Nat × Option Nat :=
  (rustLines block).foldl locStep (none, none)

/-- The `(physical id, core id)` pair contributed by one block, if any
(blank blocks and blocks missing either id contribute nothing). -/
def blockPair (block : Str) : Option (Nat × Nat) :=
  if (trimL block).isEmpty then none
  else
    match blockIds block with
    | (some p, some c) => some (p, c)
    | _ => none

/-- The `physical id` contributed by one block, if any. -/
def blockPhysId (block : Str) : Option Nat :=
  if (trimL block).isEmpty then none else (blockIds block).1

/-- All `(physical id, core id)` pairs observed across the blocks of a
content string, in block order. -/
def idPairs (content : Str) : List (Nat × Nat) :=
  (blocksOf content).filterMap blockPair

/-- All `physical id`s observed across the blocks of a content string. -/
def physIdList (content : Str) : List Nat :=
  (blocksOf content).filterMap blockPhysId

/-- The non-blank processor blocks (the units the source counts as logical
cores). -/
def observedUnits (content : Str) : Nat :=
  ((blocksOf content).filter (fun b => !(trimL b).isEmpty)).length

/-- The `cpu MHz` reading contributed by one line, if any.  The branch
chain mirrors the key dispatch of the source's scan; every arm other than
`"cpu MHz"` contributes nothing. -/
def lineMhz (line : Str) : Option ℚ :=
  let l := trimL line
  if l.isEmpty then none
  else
    match splitOnceL ':' l with
    | none => none
    | some (k, v) =>
      let key := trimL k
      let val := trimL v
      if key = "model name".toList then none
      else if key = "vendor_id".toList then none
      else if key = "flags".toList then none
      else if key = "cache size".toList then none
      else if key = "cpu MHz".toList then parseF32L val
      else none

/-- All `cpu MHz` readings observed across the blocks, in source order. -/
def mhzReadings (content : Str) : List ℚ :=
  ((blocksOf content).filter (fun b => !(trimL b).isEmpty)).foldr
    (fun b acc => (rustLines b).filterMap lineMhz ++ acc) []

/-- The running-maximum fold the source performs over frequency readings
(`max_mhz.map_or(mhz, |current| current.max(mhz))`, src/linux/linux.rs
line 174), abstracted over a starting accumulator. -/
def optMaxFold (acc : Option ℚ) (ms : List ℚ) : Option ℚ :=
  ms.foldl (fun a m => some (match a with
                             | none => m
                             | some current => max current m)) acc

/-! ## Embedding of `LinuxCpuInfo::get_max_frequency`
(src/linux/linux.rs 258–284)

The source scans the directory entries of `/sys/devices/system/cpu`,
keeping entries named `cpu<digits>`, reads each one's
`cpufreq/scaling_max_freq` file (a kHz value), folds the maximum starting
from `0`, and reports `max / 1_000_000` GHz when the maximum is positive.
Directory entries are modelled as a name plus the optional content of the
`scaling_max_freq` file; a failed `read_dir` is the `none` case of the
outer `Option`. -/

/-- One directory entry of `/sys/devices/system/cpu`, with the content of
its `cpufreq/scaling_max_freq` file when that file is readable. -/
structure SysCpuEntry where
  name : Str
  scalingMaxFreq : Option Str

/-- The directory-name filter of `get_max_frequency`
(src/linux/linux.rs 266): named `cpu` followed by ASCII digits only. -/
def cpuDirNameOk (name : Str) : Bool :=
  isPre "cpu".toList name && (name.drop 3).all Char.isDigit

/-- One step of the `get_max_frequency` maximum fold
(src/linux/linux.rs 263–275): `u64` readings cannot overflow the fold
since `max` never exceeds its arguments. -/
def gmStep (mx : Nat) (e : SysCpuEntry) : Nat :=
  if cpuDirNameOk e.name then
    match e.scalingMaxFreq with
    | some contents =>
      match parseU64L (trimL contents) with
      | some freq => max mx freq
      | none => mx
    | none => mx
  else mx

/-- Embedding of `LinuxCpuInfo::get_max_frequency`
(src/linux/linux.rs 258–284). -/
def get_max_frequency (dir : Option (List SysCpuEntry)) : Option ℚ :=
  match dir with
  | none => none
  | some entries =>
    let maxFreq := entries.foldl gmStep 0
    if 0 < maxFreq then some ((maxFreq : ℚ) / 1000000) else none

/-- Specification-side extraction: the kHz readings of the validly named
cpu entries whose frequency file is readable and parses. -/
def sysfsKhzReadings (entries : List SysCpuEntry) : List Nat :=
  entries.filterMap (fun e =>
    if cpuDirNameOk e.name then
      e.scalingMaxFreq.bind (fun c => parseU64L (trimL c))
    else none)

/-- The frequency-source preference of `LinuxCpuInfo::new`
(src/linux/linux.rs line 79): `Self::get_max_frequency().or(parsed_info.max_mhz)`. -/
def max_mhz_selection (sysfs legacy : Option ℚ) : Option ℚ :=
  match sysfs with
  | some v => some v
  | none => legacy

/-! ## Embedding of `LinuxCpuInfo::get_cache_info` and
`LinuxCpuInfo::get_physical_core_count` (src/linux/linux.rs 300–356,
488–534)

`get_cache_info` reads the `index*` directories of
`/sys/devices/system/cpu/cpu0/cache`, each contributing `level`, `type`
and `size` files; successfully parsed sizes are inserted into a
`HashMap` keyed `L{level}_{type}` (a later insert overwrites an earlier
one, modelled by prepending to an association list read front-to-back).
Totals multiply L1d/L1i/L2 by the physical core count and copy L3
unchanged.  `get_physical_core_count` re-reads `/proc/cpuinfo` (modelled
as an `Option Str` parameter) and repeats the distinct-id counting of
`parse_cpuinfo`, except that lines are fed to `split_once(':')`
untrimmed (the source omits the `line.trim()` there). -/

/-- One `index*` directory of `cpu0/cache`, with the optional contents of
its `level`, `type` and `size` files. -/
structure CacheIndexEntry where
  name : Str
  level : Option Str
  ctype : Option Str
  size : Option Str

/-- One step of the cache-map accumulation (src/linux/linux.rs 308–334).
`HashMap::insert`'s overwrite is modelled by prepending, with lookups
taking the first match. -/
def cacheMapStep (m : List (Str × Nat)) (e : CacheIndexEntry) : List (Str × Nat) :=
  if isPre "index".toList e.name then
    match e.level, e.ctype, e.size with
    | some levelStr, some typeStr, some sizeStr =>
      let level := trimL levelStr
      let cacheType := trimL typeStr
      let size := trimL sizeStr
      match parse_cache_size size with
      | some kb => ("L".toList ++ level ++ "_".toList ++ cacheType, kb) :: m
      | none => m
    | _, _, _ => m
  else m

/-- The cache map accumulated over the `index*` entries of cpu0. -/
def cacheMapOf (entries : List CacheIndexEntry) : List (Str × Nat) :=
  entries.foldl cacheMapStep []

/-- One line of the `get_physical_core_count` scan
(src/linux/linux.rs 501–517): like `locStep` but without the leading
`line.trim()` (the source omits it in this copy of the loop). -/
def locStepPcc (loc : Option Nat × Option Nat) (line : Str) : Option Nat × Option Nat :=
  match splitOnceL ':' line with
  | none => loc
  | some (k, v) =>
    if trimL k = "physical id".toList then
      match parseU32L (trimL v) with
      | some id => (some id, loc.2)
      | none => loc
    else if trimL k = "core id".toList then
      match parseU32L (trimL v) with
      | some id => (loc.1, some id)
      | none => loc
    else loc

/-- One block of the `get_physical_core_count` scan
(src/linux/linux.rs 493–525), accumulating the two distinct-id sets. -/
def pccBlockStep (s : Finset Nat × Finset (Nat × Nat)) (b : Str) :
    Finset Nat × Finset (Nat × Nat) :=
  if (trimL b).isEmpty then s
  else
    let ids := (rustLines b).foldl locStepPcc (none, none)
    let s1 :=
      match ids.1 with
      | some p => (insert p s.1, s.2)
      | none => s
    match ids.1, ids.2 with
    | some p, some c => (s1.1, insert (p, c) s1.2)
    | _, _ => s1

/-- Embedding of `LinuxCpuInfo::get_physical_core_count`
(src/linux/linux.rs 488–534); `none` models an unreadable
`/proc/cpuinfo`, and the source otherwise always returns `Some`
(lines 527–533). -/
def get_physical_core_count (cpuinfo : Option Str) : Option Nat :=
  match cpuinfo with
  | none => none
  | some content =>
    let r := (splitOnL "\n\n".toList content).foldl pccBlockStep (∅, ∅)
    if r.2.Nonempty then some (r.2.card % 2 ^ 32)
    else if r.1.Nonempty then some (r.1.card % 2 ^ 32)
    else some 1

/-- The four-level cache tuple `(L1d, L1i, L2, L3)`, each level an
optional `(per_core_kb, total_kb)` pair. -/
abbrev CacheTuple :=
  Option (Nat × Nat) × Option (Nat × Nat) × Option (Nat × Nat) × Option (Nat × Nat)

/-- Embedding of `LinuxCpuInfo::get_cache_info`
(src/linux/linux.rs 300–356).  L1d, L1i and L2 totals are the per-unit
cpu0 size times the physical core count (`u32` multiplication, hence
`% 2^32`); the L3 total is the cpu0 size copied unchanged; every reported
pair carries `0` as its per-core component (line 351).  The function
always returns `Some` (line 350). -/
def get_cache_info (entries : List CacheIndexEntry) (cpuinfo : Option Str) :
    Option CacheTuple :=
  let cache_sizes := cacheMapOf entries
  let physical_cores := (get_physical_core_count cpuinfo).getD 1
  let l1d_total := (List.lookup "L1_Data".toList cache_sizes).map
    (fun size => (size * physical_cores) % 2 ^ 32)
  let l1i_total := (List.lookup "L1_Instruction".toList cache_sizes).map
    (fun size => (size * physical_cores) % 2 ^ 32)
  let l2_total := (List.lookup "L2_Unified".toList cache_sizes).map
    (fun size => (size * physical_cores) % 2 ^ 32)
  let l3_total := List.lookup "L3_Unified".toList cache_sizes
  some (l1d_total.map (fun total => (0, total)),
        l1i_total.map (fun total => (0, total)),
        l2_total.map (fun total => (0, total)),
        l3_total.map (fun total => (0, total)))

/-- The cache-source selection of `LinuxCpuInfo::new`
(src/linux/linux.rs 82–83): `Self::get_cache_info().unwrap_or((parsed
/proc values))` — the whole sysfs tuple when present, the whole `/proc`
tuple otherwise. -/
def cache_selection (sysfs : Option CacheTuple) (proc : CacheTuple) : CacheTuple :=
  match sysfs with
  | some t => t
  | none => proc

/-- The `/proc`-derived cache tuple of a parse result, as passed to the
`unwrap_or` fallback (src/linux/linux.rs 83). -/
def procCacheTuple (p : ParsedCpuInfo) : CacheTuple :=
  (p.l1d_size, p.l1i_size, p.l2_size, p.l3_size)

/-! ## Embedding of the vendor-key derivation
(src/macos/macos.rs 36–45, src/windows/windows.rs 49–56) -/

/-- Vendor derivation from the brand string in `MacOSCpuInfo::new`
(src/macos/macos.rs 36–45). -/
def macosVendorOf (model : Str) : Str :=
  if containsSub "intel".toList (toLowerL model) then "Intel".toList
  else if containsSub "amd".toList (toLowerL model) then "AMD".toList
  else if containsSub "apple".toList (toLowerL model) then "Apple".toList
  else "Unknown".toList

/-- Vendor derivation from the model string in `WindowsCpuInfo::new`
(src/windows/windows.rs 49–56). -/
def windowsVendorOf (model : Str) : Str :=
  if containsSub "intel".toList (toLowerL model) then "GenuineIntel".toList
  else if containsSub "amd".toList (toLowerL model) then "AuthenticAMD".toList
  else "Unknown".toList

/-! ## Embedding of `WindowsCpuInfo::new` (src/windows/windows.rs 16–129)

The two PowerShell/WMI queries are modelled by their parsed JSON fields:
`as_u64()` results become `Option Nat` (with `as u32` casts as `% 2^32`),
`as_str()` results become `Option Str`.  A failed command or unparseable
JSON for the cache queries is the `none` case of the corresponding
argument (the source `.ok()`s those).  Rust's `u32` division panics on a
zero divisor; a panic is modelled as `Option.none` of the whole
construction. -/

/-- The fields `WindowsCpuInfo::new` reads from the `Win32_Processor`
JSON (src/windows/windows.rs 32–47, 83). -/
structure WinProcJson where
  name : Option Str
  numberOfCores : Option Nat
  numberOfLogicalProcessors : Option Nat
  currentClockSpeed : Option Nat
  l3CacheSize : Option Nat

/-- The `L1`/`L2` fields of the cache JSON objects
(src/windows/windows.rs 77–81, 105–114). -/
structure WinCacheJson where
  l1 : Option Nat
  l2 : Option Nat

/-- The record `WindowsCpuInfo::new` constructs
(struct `WindowsCpuInfo`, src/windows/windows.rs 4–13). -/
structure WindowsCpuInfo where
  model : Str
  vendor : Str
  physical_cores : Nat
  logical_cores : Nat
  base_mhz : Option ℚ
  l1_size : Option (Nat × Nat)
  l2_size : Option (Nat × Nat)
  l3_size : Option (Nat × Nat)

/-- Rust `u32` division: panics (modelled `none`) when the divisor is
zero. -/
def u32divChecked (a b : Nat) : Option Nat :=
  if b = 0 then none else some (a / b)

/-- Embedding of `WindowsCpuInfo::new` (src/windows/windows.rs 16–129)
given the parsed processor JSON, the first cache query's JSON and the
alternative cache query's JSON.  `none` models a panic (division by
zero). -/
def windows_new (proc : WinProcJson) (cache alt : Option WinCacheJson) :
    Option WindowsCpuInfo := do
  let model := proc.name.getD "Unknown CPU".toList
  let physical_cores := proc.numberOfCores.getD 0 % 2 ^ 32
  let logical_cores := proc.numberOfLogicalProcessors.getD 0 % 2 ^ 32
  let base_mhz := proc.currentClockSpeed.map (fun mhz => (mhz : ℚ) / 1000)
  let vendor := windowsVendorOf model
  let r1 ←
    match cache with
    | none => pure ((none : Option (Nat × Nat)), (none : Option (Nat × Nat)),
                    (none : Option (Nat × Nat)))
    | some cj => do
      let l1a ←
        match cj.l1 with
        | some l1 => do
          let per ← u32divChecked (l1 % 2 ^ 32) physical_cores
          pure (some (per, l1 % 2 ^ 32))
        | none => pure none
      let l2a ←
        match cj.l2 with
        | some l2 => do
          let per ← u32divChecked (l2 % 2 ^ 32) physical_cores
          pure (some (per, l2 % 2 ^ 32))
        | none => pure none
      let l3a :=
        match proc.l3CacheSize with
        | some l3 => some (l3 % 2 ^ 32, l3 % 2 ^ 32)
        | none => none
      pure (l1a, l2a, l3a)
  let (l1a, l2a, l3a) := r1
  let r2 ←
    if l1a.isNone || l2a.isNone then
      match alt with
      | none => pure (l1a, l2a)
      | some aj => do
        let l1b ←
          if l1a.isNone then
            match aj.l1 with
            | some l1 => do
              let per ← u32divChecked (l1 % 2 ^ 32) physical_cores
              pure (some (per, l1 % 2 ^ 32))
            | none => pure l1a
          else pure l1a
        let l2b ←
          if l2a.isNone then
            match aj.l2 with
            | some l2 => do
              let per ← u32divChecked (l2 % 2 ^ 32) physical_cores
              pure (some (per, l2 % 2 ^ 32))
            | none => pure l2a
          else pure l2a
        pure (l1b, l2b)
    else pure (l1a, l2a)
  let (l1f, l2f) := r2
  pure { model := model, vendor := vendor, physical_cores := physical_cores,
         logical_cores := logical_cores, base_mhz := base_mhz,
         l1_size := l1f, l2_size := l2f, l3_size := l3a }

/-! ## Embedding of the logo catalog (src/art/logos.rs) and the
command-line logo override (src/main.rs 51–64) -/

/-- Rust's `str::replace` for a non-empty pattern: split on the pattern
and re-join with the replacement.  The source only ever replaces the
non-empty placeholders `$C1`…`$C7` and `$CR`. -/
def replaceL (s pat rep : Str) : Str :=
  if pat.isEmpty then s else List.intercalate rep (splitOnL pat s)

/-- Terminal color constant (src/art/logos.rs 2–12). -/
def C_FG_RED : Str := "\x1b[31;1m".toList

/-- Terminal color constant (src/art/logos.rs 2–12). -/
def C_FG_GREEN : Str := "\x1b[32;1m".toList

/-- Terminal color constant (src/art/logos.rs 2–12). -/
def C_FG_YELLOW : Str := "\x1b[33;1m".toList

/-- Terminal color constant (src/art/logos.rs 2–12). -/
def C_FG_BLUE : Str := "\x1b[34;1m".toList

/-- Terminal color constant (src/art/logos.rs 2–12). -/
def C_FG_MAGENTA : Str := "\x1b[35;1m".toList

/-- Terminal color constant (src/art/logos.rs 2–12). -/
def C_FG_CYAN : Str := "\x1b[36;1m".toList

/-- Terminal color constant (src/art/logos.rs 2–12). -/
def C_FG_WHITE : Str := "\x1b[37;1m".toList

/-- Terminal reset constant (src/art/logos.rs 12). -/
def COLOR_RESET : Str := "\x1b[m".toList

/-- The `ASCII_AMD` logo constant (src/art/logos.rs). -/
def ASCII_AMD : Str :=
  "$C2          \x27###############             \n$C2             ,#############            \n$C2                      .####            \n$C2              #.      .####            \n$C2            :##.      .####            \n$C2           :###.      .####            \n$C2           #########.   :##            \n$C2           #######.       ;            \n$C1                                       \n$C1    ###     ###      ###   #######     \n$C1   ## ##    #####  #####   ##     ##   \n$C1  ##   ##   ### #### ###   ##      ##  \n$C1 #########  ###  ##  ###   ##      ##  \n$C1##       ## ###      ###   ##     ##   \n$C1##       ## ###      ###   #######     \n".toList

/-- The `ASCII_INTEL_NEW` logo constant (src/art/logos.rs). -/
def ASCII_INTEL_NEW : Str :=
  "$C1  MMM                 oddl                   MMN   \n$C1  MMM                 dMMN                   MMN   \n$C1  ...  ....   ...     dMMM..      .cc.       NMN   \n$C1  MMM  :MMMdWMMMMMX.  dMMMMM,  .XMMMMMMNo    MMN   \n$C1  MMM  :MMMp    dMMM  dMMX   .NMW      WMN.  MMN   \n$C1  MMM  :MMM      WMM  dMMK   kMMXooooooNMMx  MMN   \n$C1  MMM  :MMM      NMM  dMMK   dMMX            MMN   \n$C1  MMM  :MMM      NMM  dMMMoo  OMM0....:Nx.   MMN   \n$C1  MMM  :WWW      XWW   lONMM   \x27xXMMMMNOc    MMN   \n".toList

/-- The `ASCII_ARM` logo constant (src/art/logos.rs). -/
def ASCII_ARM : Str :=
  "$C1   #####  ##   # #####  ## ####  ######   \n$C1 ###    ####   ###      ####  ###   ###   \n$C1###       ##   ###      ###    ##    ###  \n$C1 ###    ####   ###      ###    ##    ###  \n$C1  ######  ##   ###      ###    ##    ###  \n".toList

/-- The `ASCII_NVIDIA` logo constant (src/art/logos.rs). -/
def ASCII_NVIDIA : Str :=
  "$C1               \x27cccccccccccccccccccccccccc   \n$C1               ;oooooooooooooooooooooooool   \n$C1           .:::.     .oooooooooooooooooool   \n$C1      .:cll;   ,c:::.     cooooooooooooool   \n$C1   ,clo\x27      ;.   oolc:     ooooooooooool   \n$C1.cloo    ;cclo .      .olc.    coooooooool   \noooo   :lo,    ;ll;    looc    :oooooooool      \n oooc   ool.   ;oooc;clol    :looooooooool      \n  :ooc   ,ol;  ;oooooo.   .cloo;     loool      \n    ool;   .olc.       ,:lool        .lool      \n      ool:.    ,::::ccloo.        :clooool      \n         oolc::.            \x27:cclooooooool      \n               ;oooooooooooooooooooooooool      \n                                                \n$C2######.  ##   ##  ##  ######   ##    ###     \n$C2##   ##  ##   ##  ##  ##   ##  ##   #: :#    \n$C2##   ##   ## ##   ##  ##   ##  ##  #######   \n$C2##   ##    ###    ##  ######   ## ##     ##  \n".toList

/-- The `ASCII_POWERPC` logo constant (src/art/logos.rs). -/
def ASCII_POWERPC : Str :=
  "$C1     //////                                   //////    /////  \n$C1    //// /// ,//// /// ///  /// /////  ///// /// ////////      \n$C1   */////// /// ///////////// /// /// ///// ////////////       \n$C1   ///     /// /// ///////// ///     ///   ///        ////.    \n$C1  ///      /////   //  ///     //// ///   ///          /////   \n".toList

/-- The `ASCII_APPLE` logo constant (src/art/logos.rs). -/
def ASCII_APPLE : Str :=
  "$C1                    \x27c.                     \n$C2                 ,xNMM.                     \n$C3               .OMMMMo                      \n$C4               OMMM0,                       \n$C5     .;loddo:\x27 loolloddol;.                 \n$C6   cKMMMMMMMMMMNWMMMMMMMMMM0:               \n$C7 .KMMMMMMMMMMMMMMMMMMMMMMMWd.               \n$C1 XMMMMMMMMMMMMMMMMMMMMMMMX.                 \n$C2;MMMMMMMMMMMMMMMMMMMMMMMM:                  \n$C3:MMMMMMMMMMMMMMMMMMMMMMMM:                  \n$C4.MMMMMMMMMMMMMMMMMMMMMMMMX.                 \n$C5 kMMMMMMMMMMMMMMMMMMMMMMMMWd.               \n$C6 .XMMMMMMMMMMMMMMMMMMMMMMMMMMk              \n$C7  .XMMMMMMMMMMMMMMMMMMMMMMMMK.              \n$C1    kMMMMMMMMMMMMMMMMMMMMMMd                \n$C2     ;KMMMMMMMWXXWMMMMMMMk.                 \n$C3       .cooc,.    .,coo:.                   \n".toList

/-- Embedding of `logo_lines_for_vendor` (src/art/logos.rs 96–114, also
exposed as `get_logo_lines_for_vendor`): select the raw logo and color
palette for a recognized vendor key, substitute the `$C{i+1}` placeholders
(via `format!`, i.e. `Nat.toDigits`) and `$CR`, and split into lines. -/
def logo_lines_for_vendor (vendor_id : Str) : Option (List Str) :=
  let sel : Option (Str × List Str) :=
    if vendor_id = "AuthenticAMD".toList ∨ vendor_id = "amd".toList then
      some (ASCII_AMD, [C_FG_WHITE, C_FG_RED])
    else if vendor_id = "GenuineIntel".toList ∨ vendor_id = "intel".toList then
      some (ASCII_INTEL_NEW, [C_FG_CYAN])
    else if vendor_id = "ARM".toList ∨ vendor_id = "arm".toList then
      some (ASCII_ARM, [C_FG_CYAN])
    else if vendor_id = "NVIDIA".toList ∨ vendor_id = "nvidia".toList then
      some (ASCII_NVIDIA, [C_FG_GREEN, C_FG_WHITE])
    else if vendor_id = "PowerPC".toList ∨ vendor_id = "powerpc".toList then
      some (ASCII_POWERPC, [C_FG_YELLOW])
    else if vendor_id = "Apple".toList ∨ vendor_id = "apple".toList then
      some (ASCII_APPLE, [C_FG_RED, C_FG_YELLOW, C_FG_GREEN, C_FG_CYAN,
                          C_FG_BLUE, C_FG_MAGENTA, C_FG_WHITE])
    else none
  match sel with
  | none => none
  | some (rawLogo, colors) =>
    let processed := (colors.enum).foldl
      (fun s p => replaceL s ("$C".toList ++ Nat.toDigits 10 (p.1 + 1)) p.2) rawLogo
    let processed := replaceL processed "$CR".toList COLOR_RESET
    some (rustLines processed)

/-- Embedding of the logo-override token mapping of `main`
(src/main.rs 51–64): lowercase the token and map it to the canonical
vendor key, `none` for unrecognized tokens. -/
def logoOverrideMap (logo : Str) : Option Str :=
  let l := toLowerL logo
  if l = "nvidia".toList then some "NVIDIA".toList
  else if l = "powerpc".toList then some "PowerPC".toList
  else if l = "arm".toList then some "ARM".toList
  else if l = "amd".toList then some "AuthenticAMD".toList
  else if l = "intel".toList then some "GenuineIntel".toList
  else if l = "apple".toList then some "Apple".toList
  else none

/-! ### Structural lemmas about the `parse_cpuinfo` scan -/

/-- `gsStep` leaves the identity sets and the unit counter untouched, and
updates the frequency accumulator exactly by the line's `cpu MHz`
reading. -/
theorem gsStep_fields (gs : GState) (line : Str) :
    (gsStep gs line).physIds = gs.physIds ∧
    (gsStep gs line).coreIds = gs.coreIds ∧
    (gsStep gs line).logical = gs.logical ∧
    (gsStep gs line).maxMhz =
      (match lineMhz line with
       | some m => some (match gs.maxMhz with
                         | none => m
                         | some current => max current m)
       | none => gs.maxMhz) := by
  simp only [gsStep, lineMhz]
  repeat' split
  all_goals simp_all

/-- Splitting the paired per-line fold of `procBlock` into its two
independent component folds. -/
theorem foldl_pairSplit (l : List Str) (gs : GState) (loc : Option Nat × Option Nat) :
    l.foldl (fun p line => (gsStep p.1 line, locStep p.2 line)) (gs, loc) =
      (l.foldl gsStep gs, l.foldl locStep loc) := by
  induction l generalizing gs loc with
  | nil => rfl
  | cons x xs ih => simp [List.foldl_cons, ih]

theorem foldl_gsStep_physIds (l : List Str) (gs : GState) :
    (l.foldl gsStep gs).physIds = gs.physIds := by
  induction l generalizing gs with
  | nil => rfl
  | cons x xs ih => rw [List.foldl_cons, ih, (gsStep_fields gs x).1]

theorem foldl_gsStep_coreIds (l : List Str) (gs : GState) :
    (l.foldl gsStep gs).coreIds = gs.coreIds := by
  induction l generalizing gs with
  | nil => rfl
  | cons x xs ih => rw [List.foldl_cons, ih, (gsStep_fields gs x).2.1]

theorem foldl_gsStep_logical (l : List Str) (gs : GState) :
    (l.foldl gsStep gs).logical = gs.logical := by
  induction l generalizing gs with
  | nil => rfl
  | cons x xs ih => rw [List.foldl_cons, ih, (gsStep_fields gs x).2.2.1]

theorem foldl_gsStep_maxMhz (l : List Str) (gs : GState) :
    (l.foldl gsStep gs).maxMhz = optMaxFold gs.maxMhz (l.filterMap lineMhz) := by
  induction l generalizing gs with
  | nil => rfl
  | cons x xs ih =>
    rw [List.foldl_cons, ih]
    have h4 := (gsStep_fields gs x).2.2.2
    cases h : lineMhz x with
    | none =>
      rw [h] at h4
      simp only [List.filterMap_cons, h, h4]
    | some m =>
      rw [h] at h4
      simp only [List.filterMap_cons, h, h4, optMaxFold, List.foldl_cons]

/-- Per-block characterization of the distinct-pair accumulator. -/
theorem procBlock_coreIds (gs : GState) (b : Str) :
    (procBlock gs b).coreIds =
      (match blockPair b with
       | some pr => insert pr gs.coreIds
       | none => gs.coreIds) := by
  simp only [procBlock, blockPair, blockIds]
  split
  · rfl
  · rw [foldl_pairSplit]
    rcases hr : (rustLines b).foldl locStep (none, none) with ⟨op, oc⟩
    rcases op with _ | p <;> rcases oc with _ | c <;>
      simp [hr, foldl_gsStep_coreIds]

/-- Per-block characterization of the distinct-`physical id` accumulator. -/
theorem procBlock_physIds (gs : GState) (b : Str) :
    (procBlock gs b).physIds =
      (match blockPhysId b with
       | some p => insert p gs.physIds
       | none => gs.physIds) := by
  simp only [procBlock, blockPhysId, blockIds]
  split
  · rfl
  · rw [foldl_pairSplit]
    rcases hr : (rustLines b).foldl locStep (none, none) with ⟨op, oc⟩
    rcases op with _ | p <;> rcases oc with _ | c <;>
      simp [hr, foldl_gsStep_physIds]

/-- Per-block characterization of the logical-unit counter. -/
theorem procBlock_logical (gs : GState) (b : Str) :
    (procBlock gs b).logical =
      if (trimL b).isEmpty then gs.logical else (gs.logical + 1) % 2 ^ 32 := by
  simp only [procBlock]
  split
  · simp [*]
  · rw [foldl_pairSplit]
    rcases hr : (rustLines b).foldl locStep (none, none) with ⟨op, oc⟩
    rcases op with _ | p <;> rcases oc with _ | c <;>
      simp [hr, foldl_gsStep_logical, *]

/-- Per-block characterization of the frequency accumulator. -/
theorem procBlock_maxMhz (gs : GState) (b : Str) :
    (procBlock gs b).maxMhz =
      if (trimL b).isEmpty then gs.maxMhz
      else optMaxFold gs.maxMhz ((rustLines b).filterMap lineMhz) := by
  simp only [procBlock]
  split
  · simp [*]
  · rw [foldl_pairSplit]
    rcases hr : (rustLines b).foldl locStep (none, none) with ⟨op, oc⟩
    rcases op with _ | p <;> rcases oc with _ | c <;>
      simp [hr, foldl_gsStep_maxMhz, *]

/-- A blank block contributes nothing to the `parse_cpuinfo` scan. -/
theorem procBlock_of_empty {b : Str} (gs : GState) (h : (trimL b).isEmpty = true) :
    procBlock gs b = gs := by
  simp [procBlock, h]

theorem foldl_procBlock_coreIds (bs : List Str) (gs : GState) :
    (bs.foldl procBlock gs).coreIds = gs.coreIds ∪ (bs.filterMap blockPair).toFinset := by
  induction bs generalizing gs with
  | nil => simp
  | cons b bs ih =>
    rw [List.foldl_cons, ih, procBlock_coreIds]
    cases h : blockPair b <;>
      simp [List.filterMap_cons, h, Finset.union_insert, Finset.insert_union]

theorem foldl_procBlock_physIds (bs : List Str) (gs : GState) :
    (bs.foldl procBlock gs).physIds = gs.physIds ∪ (bs.filterMap blockPhysId).toFinset := by
  induction bs generalizing gs with
  | nil => simp
  | cons b bs ih =>
    rw [List.foldl_cons, ih, procBlock_physIds]
    cases h : blockPhysId b <;>
      simp [List.filterMap_cons, h, Finset.union_insert, Finset.insert_union]

theorem foldl_procBlock_logical (bs : List Str) (gs : GState) (h : gs.logical < 2 ^ 32) :
    (bs.foldl procBlock gs).logical =
      (gs.logical + (bs.filter (fun b => !(trimL b).isEmpty)).length) % 2 ^ 32 := by
  induction bs generalizing gs with
  | nil => simpa using (Nat.mod_eq_of_lt h).symm
  | cons b bs ih =>
    rw [List.foldl_cons]
    by_cases hb : (trimL b).isEmpty = true
    · rw [procBlock_of_empty gs hb, ih gs h]
      simp [List.filter_cons, hb]
    · have hlog : (procBlock gs b).logical = (gs.logical + 1) % 2 ^ 32 := by
        rw [procBlock_logical]; simp [hb]
      have hlt : (procBlock gs b).logical < 2 ^ 32 := by
        rw [hlog]; exact Nat.mod_lt _ (by norm_num)
      rw [ih _ hlt, hlog, Nat.mod_add_mod]
      have : (bs.filter (fun b => !(trimL b).isEmpty)).length + 1 =
          ((b :: bs).filter (fun b => !(trimL b).isEmpty)).length := by
        simp [List.filter_cons, hb]
      omega

theorem foldl_procBlock_maxMhz (bs : List Str) (gs : GState) :
    (bs.foldl procBlock gs).maxMhz =
      optMaxFold gs.maxMhz ((bs.filter (fun b => !(trimL b).isEmpty)).foldr
        (fun b acc => (rustLines b).filterMap lineMhz ++ acc) []) := by
  induction bs generalizing gs with
  | nil => rfl
  | cons b bs ih =>
    rw [List.foldl_cons]
    by_cases hb : (trimL b).isEmpty = true
    · rw [procBlock_of_empty gs hb, ih gs]
      simp [List.filter_cons, hb]
    · have hmax : (procBlock gs b).maxMhz =
          optMaxFold gs.maxMhz ((rustLines b).filterMap lineMhz) := by
        rw [procBlock_maxMhz]; simp [hb]
      rw [ih _, hmax]
      simp [List.filter_cons, hb, optMaxFold, List.foldl_append]

/-- The distinct-pair set of a full parse is exactly the set of observed
pairs. -/
theorem parse_gs_coreIds (content : Str) :
    ((blocksOf content).foldl procBlock initGState).coreIds = (idPairs content).toFinset := by
  rw [foldl_procBlock_coreIds]
  simp [initGState, idPairs]

/-- The distinct-`physical id` set of a full parse is exactly the set of
observed ids. -/
theorem parse_gs_physIds (content : Str) :
    ((blocksOf content).foldl procBlock initGState).physIds = (physIdList content).toFinset := by
  rw [foldl_procBlock_physIds]
  simp [initGState, physIdList]

/-- The logical-core counter of a full parse counts the non-blank
blocks. -/
theorem parse_gs_logical (content : Str) :
    ((blocksOf content).foldl procBlock initGState).logical = observedUnits content % 2 ^ 32 := by
  rw [foldl_procBlock_logical _ _ (by simp [initGState])]
  simp [initGState, observedUnits]

/-- The frequency accumulator of a full parse is the running maximum of
the observed readings. -/
theorem parse_gs_maxMhz (content : Str) :
    ((blocksOf content).foldl procBlock initGState).maxMhz =
      optMaxFold none (mhzReadings content) := by
  rw [foldl_procBlock_maxMhz]
  simp [initGState, mhzReadings]

theorem toFinset_ne_nil {α : Type} [DecidableEq α] (l : List α) :
    l.toFinset.Nonempty ↔ l ≠ [] := by
  cases l <;> simp

theorem filterMap_blockPair_length (bs : List Str) :
    (bs.filterMap blockPair).length ≤ (bs.filter (fun b => !(trimL b).isEmpty)).length := by
  induction bs with
  | nil => simp
  | cons b bs ih =>
    by_cases hb : (trimL b).isEmpty = true
    · have hnone : blockPair b = none := by simp [blockPair, hb]
      simpa [List.filterMap_cons, List.filter_cons, hb, hnone] using ih
    · cases h : blockPair b <;>
        simp [List.filterMap_cons, List.filter_cons, hb, h] <;> omega

theorem filterMap_blockPhysId_length (bs : List Str) :
    (bs.filterMap blockPhysId).length ≤ (bs.filter (fun b => !(trimL b).isEmpty)).length := by
  induction bs with
  | nil => simp
  | cons b bs ih =>
    by_cases hb : (trimL b).isEmpty = true
    · have hnone : blockPhysId b = none := by simp [blockPhysId, hb]
      simpa [List.filterMap_cons, List.filter_cons, hb, hnone] using ih
    · cases h : blockPhysId b <;>
        simp [List.filterMap_cons, List.filter_cons, hb, h] <;> omega

/-- **C1**: for every `/proc/cpuinfo` content string, `parse_cpuinfo`'s
`physical_cores` equals the number of distinct `(physical id, core id)`
pairs observed across the blocks when at least one block yielded both
ids; else the number of distinct `physical id`s when at least one block
yielded one; else `1`.  (The two bound hypotheses discharge the source's
`usize → u32` cast, which can only matter for counts of at least
`2^32`.) -/
theorem claim_C1_physical_cores (content : Str)
    (hpair : (idPairs content).toFinset.card < 2 ^ 32)
    (hphys : (physIdList content).toFinset.card < 2 ^ 32) :
    (idPairs content ≠ [] →
      (parseCpuinfoCore content).physical_cores = (idPairs content).toFinset.card) ∧
    (idPairs content = [] → physIdList content ≠ [] →
      (parseCpuinfoCore content).physical_cores = (physIdList content).toFinset.card) ∧
    (idPairs content = [] → physIdList content = [] →
      (parseCpuinfoCore content).physical_cores = 1) := by
  have hc := parse_gs_coreIds content
  have hp := parse_gs_physIds content
  simp only [blocksOf] at hc hp
  simp only [parseCpuinfoCore]
  rw [hc, hp]
  refine ⟨fun h => ?_, fun h1 h2 => ?_, fun h1 h2 => ?_⟩
  · rw [if_pos ((toFinset_ne_nil _).2 h)]
    exact Nat.mod_eq_of_lt hpair
  · rw [if_neg (by simp [h1]), if_pos ((toFinset_ne_nil _).2 h2)]
    exact Nat.mod_eq_of_lt hphys
  · rw [if_neg (by simp [h1]), if_neg (by simp [h2])]

/-- Witness for C1: a two-block content with two distinct pairs on one
package. -/
theorem claim_C1_physical_cores_witness :
    idPairs "physical id : 0\ncore id : 0\n\nphysical id : 0\ncore id : 1\n".toList ≠ [] ∧
    (parseCpuinfoCore "physical id : 0\ncore id : 0\n\nphysical id : 0\ncore id : 1\n".toList).physical_cores =
      (idPairs "physical id : 0\ncore id : 0\n\nphysical id : 0\ncore id : 1\n".toList).toFinset.card :=
  ⟨by decide,
   (claim_C1_physical_cores _ (by decide) (by decide)).1 (by decide)⟩

/-- **C4** counterexample: a readable content with no usable identifying
fields at all (the empty string: empty model, empty vendor, zero units)
does NOT make `parse_cpuinfo` fail — it returns `Ok` with empty fields,
so no `InsufficientData` hard error exists. -/
theorem claim_C4_cex :
    (parse_cpuinfo []).isOk = true ∧
    (parseCpuinfoCore []).model = [] ∧
    (parseCpuinfoCore []).vendor = [] ∧
    (parseCpuinfoCore []).logical_cores = 0 := by
  refine ⟨rfl, ?_, ?_, ?_⟩ <;> decide

/-- **C4** (amended): `parse_cpuinfo` never fails; even a content with no
usable identifying fields produces an `Ok` record (with empty model and
vendor and zero logical cores) rather than an `InsufficientData` error. -/
theorem claim_C4_never_fails (content : Str) : (parse_cpuinfo content).isOk = true := rfl

/-- **C6** counterexample: on the empty content, zero units are observed,
so `logical_cores = 0` while the fallback sets `physical_cores = 1`, and
`logical_cores ≥ physical_cores` fails. -/
theorem claim_C6_cex :
    ¬ (parseCpuinfoCore []).physical_cores ≤ (parseCpuinfoCore []).logical_cores := by
  decide

/-- **C6** (amended): whenever at least one processor unit is observed
(and the unit count fits `u32`, discharging the source's wrapping `u32`
increment), every output of `parse_cpuinfo` satisfies
`logical_cores ≥ physical_cores`. -/
theorem claim_C6_logical_ge_physical (content : Str)
    (hunits : observedUnits content ≠ 0)
    (hbound : observedUnits content < 2 ^ 32) :
    (parseCpuinfoCore content).physical_cores ≤ (parseCpuinfoCore content).logical_cores := by
  have hc := parse_gs_coreIds content
  have hp := parse_gs_physIds content
  have hl := parse_gs_logical content
  have hlen1 : (idPairs content).length ≤ observedUnits content :=
    filterMap_blockPair_length (blocksOf content)
  have hlen2 : (physIdList content).length ≤ observedUnits content :=
    filterMap_blockPhysId_length (blocksOf content)
  have hcard1 : (idPairs content).toFinset.card ≤ (idPairs content).length :=
    List.toFinset_card_le _
  have hcard2 : (physIdList content).toFinset.card ≤ (physIdList content).length :=
    List.toFinset_card_le _
  simp only [blocksOf] at hc hp hl
  simp only [parseCpuinfoCore]
  rw [hc, hp, hl, Nat.mod_eq_of_lt hbound]
  split
  · exact le_trans (Nat.mod_le _ _) (le_trans hcard1 hlen1)
  · split
    · exact le_trans (Nat.mod_le _ _) (le_trans hcard2 hlen2)
    · omega

/-- Witness for C6 at a one-unit content. -/
theorem claim_C6_logical_ge_physical_witness :
    observedUnits "processor : 0\n".toList ≠ 0 ∧
    (parseCpuinfoCore "processor : 0\n".toList).physical_cores ≤
      (parseCpuinfoCore "processor : 0\n".toList).logical_cores :=
  ⟨by decide, claim_C6_logical_ge_physical _ (by decide) (by decide)⟩

/-- **C3** counterexample: the source's `parse_cache_size` understands
only the `K`/`KB` suffixes, so the megabyte form `"2M"` parses to `none`,
not to `2048` as the claim states. -/
theorem claim_C3_cex :
    parse_cache_size "2M".toList = none ∧ parse_cache_size "2M".toList ≠ some 2048 := by
  refine ⟨by decide, by decide⟩

/-- **C3** (amended): `parse_cache_size` normalizes a `K`- or
`KB`-suffixed cache-size string and an unsuffixed numeric string to a
kilobyte integer, and yields `none` (never zero) both for malformed
strings and for the unhandled megabyte suffix: `"512K" ↦ 512`,
`"1024" ↦ 1024`, `"32KB" ↦ 32`, `"abc" ↦ none`, `"2M" ↦ none`. -/
theorem claim_C3_parse_cache_size :
    parse_cache_size "512K".toList = some 512 ∧
    parse_cache_size "1024".toList = some 1024 ∧
    parse_cache_size "32KB".toList = some 32 ∧
    parse_cache_size "abc".toList = none ∧
    parse_cache_size "2M".toList = none := by
  refine ⟨?_, ?_, ?_, ?_, ?_⟩ <;> decide

/-- **C2**: for the structured sysfs cache tree, each per-core level's
reported total (L1 data, L1 instruction, L2) is the per-unit cpu0 size
times the physical core count, and the shared L3 level's total is the
per-unit size unchanged.  (The `< 2^32` hypotheses discharge the
source's `u32` multiplication.) -/
theorem claim_C2_cache_totals (entries : List CacheIndexEntry) (cpuinfo : Option Str) :
    (∀ s, List.lookup "L1_Data".toList (cacheMapOf entries) = some s →
      s * ((get_physical_core_count cpuinfo).getD 1) < 2 ^ 32 →
      ((get_cache_info entries cpuinfo).getD (none, none, none, none)).1 =
        some (0, s * ((get_physical_core_count cpuinfo).getD 1))) ∧
    (∀ s, List.lookup "L1_Instruction".toList (cacheMapOf entries) = some s →
      s * ((get_physical_core_count cpuinfo).getD 1) < 2 ^ 32 →
      ((get_cache_info entries cpuinfo).getD (none, none, none, none)).2.1 =
        some (0, s * ((get_physical_core_count cpuinfo).getD 1))) ∧
    (∀ s, List.lookup "L2_Unified".toList (cacheMapOf entries) = some s →
      s * ((get_physical_core_count cpuinfo).getD 1) < 2 ^ 32 →
      ((get_cache_info entries cpuinfo).getD (none, none, none, none)).2.2.1 =
        some (0, s * ((get_physical_core_count cpuinfo).getD 1))) ∧
    (∀ s, List.lookup "L3_Unified".toList (cacheMapOf entries) = some s →
      ((get_cache_info entries cpuinfo).getD (none, none, none, none)).2.2.2 =
        some (0, s)) := by
  have h32 : (2 : Nat) ^ 32 = 4294967296 := by norm_num
  refine ⟨fun s h hlt => ?_, fun s h hlt => ?_, fun s h hlt => ?_, fun s h => ?_⟩ <;>
    [skip; skip; skip; (simp only [get_cache_info]; rw [h]; simp)] <;>
    (rw [h32] at hlt; simp only [get_cache_info]; rw [h]; simp [Nat.mod_eq_of_lt hlt])

/-- Witness for C2: an L1-data entry and an L3 entry of cpu0 with a
two-core `/proc/cpuinfo`. -/
theorem claim_C2_cache_totals_witness :
    ((get_cache_info
        [⟨"index0".toList, some "1".toList, some "Data".toList, some "32K".toList⟩,
         ⟨"index3".toList, some "3".toList, some "Unified".toList, some "16384K".toList⟩]
        (some "physical id : 0\ncore id : 0\n\nphysical id : 0\ncore id : 1\n".toList)).getD
          (none, none, none, none)).1 = some (0, 32 * 2) ∧
    ((get_cache_info
        [⟨"index0".toList, some "1".toList, some "Data".toList, some "32K".toList⟩,
         ⟨"index3".toList, some "3".toList, some "Unified".toList, some "16384K".toList⟩]
        (some "physical id : 0\ncore id : 0\n\nphysical id : 0\ncore id : 1\n".toList)).getD
          (none, none, none, none)).2.2.2 = some (0, 16384) := by
  have h := claim_C2_cache_totals
    [⟨"index0".toList, some "1".toList, some "Data".toList, some "32K".toList⟩,
     ⟨"index3".toList, some "3".toList, some "Unified".toList, some "16384K".toList⟩]
    (some "physical id : 0\ncore id : 0\n\nphysical id : 0\ncore id : 1\n".toList)
  have h1 := h.1 32 (by decide) (by decide)
  have h3 := h.2.2.2 16384 (by decide)
  have hp : (get_physical_core_count
      (some "physical id : 0\ncore id : 0\n\nphysical id : 0\ncore id : 1\n".toList)).getD 1 = 2 := by
    decide
  rw [hp] at h1
  exact ⟨h1, h3⟩

/-- **C5** counterexample: the source's fallback is all-or-nothing, not
per-field.  Here sysfs supplies an L1d entry but no L2, while
`/proc/cpuinfo` supplies an L2 value; the combined result drops the
`/proc` L2 instead of filling the missing field with it. -/
theorem claim_C5_cex :
    (parseCpuinfoCore "model name : Foo\ncache size : 512 KB\n".toList).l2_size =
      some (512, 512) ∧
    (get_cache_info [⟨"index0".toList, some "1".toList, some "Data".toList, some "32K".toList⟩]
      (some "model name : Foo\ncache size : 512 KB\n".toList)).isSome = true ∧
    ((get_cache_info [⟨"index0".toList, some "1".toList, some "Data".toList, some "32K".toList⟩]
      (some "model name : Foo\ncache size : 512 KB\n".toList)).getD
        (none, none, none, none)).2.2.1 = none ∧
    (cache_selection
      (get_cache_info [⟨"index0".toList, some "1".toList, some "Data".toList, some "32K".toList⟩]
        (some "model name : Foo\ncache size : 512 KB\n".toList))
      (procCacheTuple (parseCpuinfoCore "model name : Foo\ncache size : 512 KB\n".toList))).2.2.1 =
      none := by
  refine ⟨?_, ?_, ?_, ?_⟩ <;> decide

/-- **C5** (amended): the cache-source selection of `LinuxCpuInfo::new`
is all-or-nothing at tuple granularity: when the sysfs reader yields a
tuple (which it structurally always does — it returns `Some`
unconditionally), that entire tuple is used and no `/proc` cache field
is consulted, so a sysfs-supplied value is never overwritten by a
`/proc` value; the `/proc` tuple is used only in the (unreachable)
`None` case. -/
theorem claim_C5_selection (sysfs : Option CacheTuple) (proc : CacheTuple)
    (entries : List CacheIndexEntry) (cpuinfo : Option Str) :
    (∀ t, sysfs = some t → cache_selection sysfs proc = t) ∧
    (sysfs = none → cache_selection sysfs proc = proc) ∧
    (get_cache_info entries cpuinfo).isSome = true := by
  refine ⟨fun t ht => ?_, fun h => ?_, ?_⟩
  · simp [cache_selection, ht]
  · simp [cache_selection, h]
  · simp [get_cache_info]

/-- Witness for C5's amended selection rule at concrete tuples. -/
theorem claim_C5_selection_witness :
    cache_selection (some (none, none, some (0, 512), none))
      (some (1, 2), none, none, none) = (none, none, some (0, 512), none) ∧
    cache_selection none (some (1, 2), none, none, none) =
      (some (1, 2), none, none, none) :=
  ⟨(claim_C5_selection (some (none, none, some (0, 512), none))
      (some (1, 2), none, none, none) [] none).1 _ rfl,
   (claim_C5_selection none (some (1, 2), none, none, none) [] none).2.1 rfl⟩

/-- **C7**: vendor-key derivation from the brand/model string is
case-insensitive substring matching with Intel checked before AMD on both
the macOS and the Windows variant; a string containing `intel` in any
case yields the platform's Intel key, a string containing both fragments
resolves to the Intel key on both platforms, and a string containing no
known fragment yields the Unknown key. -/
theorem claim_C7_vendor_matching (model : Str) :
    (containsSub "intel".toList (toLowerL model) = true →
      macosVendorOf model = "Intel".toList ∧
      windowsVendorOf model = "GenuineIntel".toList) ∧
    (containsSub "intel".toList (toLowerL model) = true →
     containsSub "amd".toList (toLowerL model) = true →
      macosVendorOf model = "Intel".toList ∧
      windowsVendorOf model = "GenuineIntel".toList) ∧
    (containsSub "intel".toList (toLowerL model) = false →
     containsSub "amd".toList (toLowerL model) = false →
     containsSub "apple".toList (toLowerL model) = false →
      macosVendorOf model = "Unknown".toList ∧
      windowsVendorOf model = "Unknown".toList) := by
  refine ⟨fun h => ?_, fun h _ => ?_, fun h1 h2 h3 => ?_⟩
  · simp only [macosVendorOf, windowsVendorOf]
    rw [h]
    simp
  · simp only [macosVendorOf, windowsVendorOf]
    rw [h]
    simp
  · simp only [macosVendorOf, windowsVendorOf]
    rw [h1, h2, h3]
    simp

/-- Witness for C7 at a mixed-vendor string and an unknown string. -/
theorem claim_C7_vendor_matching_witness :
    macosVendorOf "InTeL and AMD".toList = "Intel".toList ∧
    windowsVendorOf "InTeL and AMD".toList = "GenuineIntel".toList ∧
    macosVendorOf "SPARC".toList = "Unknown".toList ∧
    windowsVendorOf "SPARC".toList = "Unknown".toList :=
  ⟨((claim_C7_vendor_matching "InTeL and AMD".toList).2.1 (by decide) (by decide)).1,
   ((claim_C7_vendor_matching "InTeL and AMD".toList).2.1 (by decide) (by decide)).2,
   ((claim_C7_vendor_matching "SPARC".toList).2.2 (by decide) (by decide) (by decide)).1,
   ((claim_C7_vendor_matching "SPARC".toList).2.2 (by decide) (by decide) (by decide)).2⟩

theorem optMaxFold_some (a : ℚ) (ms : List ℚ) :
    optMaxFold (some a) ms = some (ms.foldl max a) := by
  induction ms generalizing a with
  | nil => rfl
  | cons m ms ih => simpa [optMaxFold, List.foldl_cons] using ih (max a m)

theorem optMaxFold_none_eq_max (ms : List ℚ) : optMaxFold none ms = ms.max? := by
  cases ms with
  | nil => rfl
  | cons m ms =>
    rw [show optMaxFold none (m :: ms) = optMaxFold (some m) ms from rfl,
      optMaxFold_some]
    rfl

theorem foldl_gmStep (entries : List SysCpuEntry) (mx : Nat) :
    entries.foldl gmStep mx = (sysfsKhzReadings entries).foldl max mx := by
  induction entries generalizing mx with
  | nil => rfl
  | cons e es ih =>
    rw [List.foldl_cons]
    cases hc : cpuDirNameOk e.name with
    | false => simp [gmStep, sysfsKhzReadings, List.filterMap_cons, hc, ih]
    | true =>
      cases hf : e.scalingMaxFreq with
      | none => simp [gmStep, sysfsKhzReadings, List.filterMap_cons, hc, hf, ih]
      | some c =>
        cases hp : parseU64L (trimL c) <;>
          simp [gmStep, sysfsKhzReadings, List.filterMap_cons, hc, hf, hp, ih]

/-- **C8**: the reported frequency is the maximum observed reading
converted by the source's unit scale — `/proc` `cpu MHz` readings are
divided by `1000`, sysfs `scaling_max_freq` kHz readings by `1,000,000` —
and the sysfs value is preferred, the `/proc` value being used only when
sysfs yields nothing. -/
theorem claim_C8_frequency (content : Str) (entries : List SysCpuEntry)
    (sysfs legacy : Option ℚ) :
    ((parseCpuinfoCore content).max_mhz =
      (mhzReadings content).max?.map (fun m => m / 1000)) ∧
    (get_max_frequency none = none) ∧
    (get_max_frequency (some entries) =
      (if 0 < (sysfsKhzReadings entries).foldl max 0 then
        some (((((sysfsKhzReadings entries).foldl max 0 : Nat)) : ℚ) / 1000000)
      else none)) ∧
    (max_mhz_selection sysfs legacy = if sysfs.isSome then sysfs else legacy) := by
  refine ⟨?_, rfl, ?_, ?_⟩
  · have hm := parse_gs_maxMhz content
    simp only [blocksOf] at hm
    simp only [parseCpuinfoCore]
    rw [hm, optMaxFold_none_eq_max]
  · simp only [get_max_frequency]
    rw [foldl_gmStep]
  · cases sysfs <;> rfl

/-- **C9** (intended safety property violated by the code):
`WindowsCpuInfo::new` divides the WMI L1/L2 cache sums by
`physical_cores`, which defaults to `0` when the processor JSON lacks
`NumberOfCores`; on such input the division-by-zero panics (modelled
`none`), while the same input with `NumberOfCores` present succeeds. -/
theorem claim_C9_div_by_zero :
    ((⟨none, none, none, none, none⟩ : WinProcJson).numberOfCores.getD 0) % 2 ^ 32 = 0 ∧
    (windows_new ⟨none, none, none, none, none⟩ (some ⟨some 64, none⟩) none).isNone = true ∧
    (windows_new ⟨none, some 4, none, none, none⟩ (some ⟨some 64, none⟩) none).isSome = true := by
  refine ⟨rfl, ?_, ?_⟩ <;> decide

set_option maxRecDepth 100000 in
/-- **C10**: each accepted logo-override token maps to a canonical vendor
key for which the logo catalog yields a non-empty list of lines, and
every string outside the fixed recognized key set yields no logo. -/
theorem claim_C10_logo_catalog :
    (((logoOverrideMap "nvidia".toList).bind logo_lines_for_vendor).isSome = true ∧
      (((logoOverrideMap "nvidia".toList).bind logo_lines_for_vendor).getD []).isEmpty = false) ∧
    (((logoOverrideMap "powerpc".toList).bind logo_lines_for_vendor).isSome = true ∧
      (((logoOverrideMap "powerpc".toList).bind logo_lines_for_vendor).getD []).isEmpty = false) ∧
    (((logoOverrideMap "arm".toList).bind logo_lines_for_vendor).isSome = true ∧
      (((logoOverrideMap "arm".toList).bind logo_lines_for_vendor).getD []).isEmpty = false) ∧
    (((logoOverrideMap "amd".toList).bind logo_lines_for_vendor).isSome = true ∧
      (((logoOverrideMap "amd".toList).bind logo_lines_for_vendor).getD []).isEmpty = false) ∧
    (((logoOverrideMap "intel".toList).bind logo_lines_for_vendor).isSome = true ∧
      (((logoOverrideMap "intel".toList).bind logo_lines_for_vendor).getD []).isEmpty = false) ∧
    (((logoOverrideMap "apple".toList).bind logo_lines_for_vendor).isSome = true ∧
      (((logoOverrideMap "apple".toList).bind logo_lines_for_vendor).getD []).isEmpty = false) ∧
    (∀ s : Str,
      s ∉ (["AuthenticAMD".toList, "amd".toList, "GenuineIntel".toList, "intel".toList,
            "ARM".toList, "arm".toList, "NVIDIA".toList, "nvidia".toList,
            "PowerPC".toList, "powerpc".toList, "Apple".toList, "apple".toList] : List Str) →
      logo_lines_for_vendor s = none) := by
  refine ⟨⟨by decide, by decide⟩, ⟨by decide, by decide⟩, ⟨by decide, by decide⟩,
    ⟨by decide, by decide⟩, ⟨by decide, by decide⟩, ⟨by decide, by decide⟩, ?_⟩
  intro s hs
  simp only [logo_lines_for_vendor]
  split_ifs with h1 h2 h3 h4 h5 h6
  · exact absurd (by rcases h1 with h | h <;> rw [h] <;> decide) hs
  · exact absurd (by rcases h2 with h | h <;> rw [h] <;> decide) hs
  · exact absurd (by rcases h3 with h | h <;> rw [h] <;> decide) hs
  · exact absurd (by rcases h4 with h | h <;> rw [h] <;> decide) hs
  · exact absurd (by rcases h5 with h | h <;> rw [h] <;> decide) hs
  · exact absurd (by rcases h6 with h | h <;> rw [h] <;> decide) hs
  · rfl

/-- Witness for C10's rejection of unrecognized keys. -/
theorem claim_C10_logo_catalog_witness :
    logo_lines_for_vendor "Motorola".toList = none :=
  claim_C10_logo_catalog.2.2.2.2.2.2 "Motorola".toList (by decide)

end Rcpufetch
